import Mathlib

/-!
Verification development for the techbrot evidence export / integrity
verification subsystem.

The definitions below are a shallow embedding of the JavaScript source:

* `functions/api/export-evidence.js` — CRC-32, the buffered ZIP builder
  `buildZipUint8Array`, the D1/R2 evidence collector, the digest phase and
  the `index.json` manifest.
* `functions/api/export-evidence-all.js` — the streaming multi-order ZIP
  builder.
* `functions/api/verify-evidence.js` — manifest lookup and per-file
  re-verification.
* `functions/api/verify-order.js` — customer verification token consumption.

Bytes are modelled as `List Nat` (each element a byte value).  JavaScript
32-bit bitwise arithmetic (`ToInt32` wrapping) is modelled by explicit
`% 2 ^ 32` reductions.  External platform collaborators (`crypto.subtle`
SHA-256, `JSON.parse`, the browser PDF renderer) are oracle parameters;
everything written in the repository itself is translated directly.
-/

namespace Techbrot

/-- A byte sequence: each element is intended to be `< 256`. -/
abbrev Bytes := List Nat

/-! ### Binary writers (`export-evidence.js` lines 38–50)

`writeU16`/`writeU32` use JS bitwise ops, which apply `ToInt32` (wrap the
operand modulo `2 ^ 32`) and then extract little-endian bytes with shifts
and `& 0xff`. -/

/-- `writeU16(n)` from `export-evidence.js`: the two little-endian bytes of
`n` after 32-bit wrapping (masking to two bytes is `% 2 ^ 16`). -/
def writeU16 (n : Nat) : Bytes :=
  [n % 65536 % 256, n % 65536 / 256]

/-- `writeU32(n)` from `export-evidence.js`: the four little-endian bytes of
`n % 2 ^ 32`. -/
def writeU32 (n : Nat) : Bytes :=
  [n % 4294967296 % 256,
   n % 4294967296 / 256 % 256,
   n % 4294967296 / 65536 % 256,
   n % 4294967296 / 16777216]

/-! ### CRC-32 (`export-evidence.js` lines 16–35; the identical function also
appears in `export-evidence-all.js` lines 16–32) -/

/-- One inner iteration of the table generator loop:
`c = (c & 1) ? (0xedb88320 ^ (c >>> 1)) : (c >>> 1)`. -/
def crcFeedback (c : Nat) : Nat :=
  if c % 2 = 1 then 0xedb88320 ^^^ (c / 2) else c / 2

/-- `makeCRC32Table()[i]`: eight iterations of `crcFeedback` starting from the
byte index `i`. -/
def crcTableEntry (i : Nat) : Nat :=
  crcFeedback (crcFeedback (crcFeedback (crcFeedback
    (crcFeedback (crcFeedback (crcFeedback (crcFeedback i)))))))

/-- `crc32(buf)`: running remainder starts at `0 ^ -1 = 0xFFFFFFFF`; each byte
does `crc = (crc >>> 8) ^ CRC_TABLE[(crc ^ buf[i]) & 0xff]`; the result is
`(crc ^ -1) >>> 0`. -/
def crc32 (buf : Bytes) : Nat :=
  (buf.foldl (fun crc b => (crc / 256) ^^^ crcTableEntry ((crc ^^^ b) % 256))
    0xFFFFFFFF) ^^^ 0xFFFFFFFF

/-! ### Buffered ZIP builder (`export-evidence.js` lines 59–129) -/

/-- One archive member handed to `buildZipUint8Array`: `name` is the UTF-8
byte sequence `enc.encode(f.name)`, `data` the raw content bytes. -/
structure ZFile where
  name : Bytes
  data : Bytes
deriving DecidableEq, Repr

/-- The fixed 30-byte local file header (signature, version 20, zero
flags/method/time/date, CRC, sizes, name length, zero extra length). -/
def localHeader (c csize usize nameLen : Nat) : Bytes :=
  [0x50, 0x4b, 0x03, 0x04] ++ writeU16 20 ++ writeU16 0 ++ writeU16 0 ++
    writeU16 0 ++ writeU16 0 ++ writeU32 c ++ writeU32 csize ++
    writeU32 usize ++ writeU16 nameLen ++ writeU16 0

/-- `localEntry`: local header followed by the name bytes and the stored
(uncompressed) data. -/
def localEntry (f : ZFile) : Bytes :=
  localHeader (crc32 f.data) f.data.length f.data.length f.name.length ++
    f.name ++ f.data

/-- The central directory record for one file, given the running byte offset
of its local entry. -/
def centralEntry (f : ZFile) (offset : Nat) : Bytes :=
  [0x50, 0x4b, 0x01, 0x02] ++ writeU16 20 ++ writeU16 20 ++ writeU16 0 ++
    writeU16 0 ++ writeU16 0 ++ writeU16 0 ++ writeU32 (crc32 f.data) ++
    writeU32 f.data.length ++ writeU32 f.data.length ++
    writeU16 f.name.length ++ writeU16 0 ++ writeU16 0 ++ writeU16 0 ++
    writeU16 0 ++ writeU32 0 ++ writeU32 offset ++ f.name

/-- The list of central directory records, threading the running local-entry
offset exactly as the `offset` variable in the source loop. -/
def centralParts : List ZFile → Nat → List Bytes
  | [], _ => []
  | f :: fs, offset =>
      centralEntry f offset :: centralParts fs (offset + (localEntry f).length)

/-- The end-of-central-directory record of `buildZipUint8Array`. -/
def eocdRecord (count csize coffset : Nat) : Bytes :=
  [0x50, 0x4b, 0x05, 0x06] ++ writeU16 0 ++ writeU16 0 ++ writeU16 count ++
    writeU16 count ++ writeU32 csize ++ writeU32 coffset ++ writeU16 0

/-- `buildZipUint8Array(files)`: all local entries, then the central
directory, then the EOCD record carrying the entry count, the central
directory byte length and the total local-entry byte length. -/
def buildZipUint8Array (files : List ZFile) : Bytes :=
  let locals := (files.map localEntry).flatten
  let centralDir := (centralParts files 0).flatten
  locals ++ centralDir ++
    eocdRecord (centralParts files 0).length centralDir.length locals.length

/-! ### Reference ZIP reader

The repository ships no unzip routine; the round-trip property of §8 of the
spec compares `buildZipUint8Array` against a straightforward reader of the
"stored"-method local entries it emits: while the next four bytes are the
local-file-header signature, read the header fields, the name and the stored
data, and continue after them. -/

/-- Little-endian 16-bit read at `off` (missing bytes read as 0). -/
def readU16 (b : Bytes) (off : Nat) : Nat :=
  b.getD off 0 + 256 * b.getD (off + 1) 0

/-- Little-endian 32-bit read at `off` (missing bytes read as 0). -/
def readU32 (b : Bytes) (off : Nat) : Nat :=
  b.getD off 0 + 256 * b.getD (off + 1) 0 + 65536 * b.getD (off + 2) 0 +
    16777216 * b.getD (off + 3) 0

/-- Fuel-driven worker for the reader.  A step fires only on a complete
30-byte local header carrying the signature `80 75 3 4`; it reads the
little-endian compressed-size (bytes 18–21), name-length (26–27) and
extra-length (28–29) fields, takes the name and the stored data, and
continues after them.  Each step consumes at least 30 bytes, so `b.length`
units of fuel always suffice. -/
def unzipGo : Nat → Bytes → List ZFile
  | 0, _ => []
  | fuel + 1,
    80 :: 75 :: 3 :: 4 :: _v0 :: _v1 :: _g0 :: _g1 :: _m0 :: _m1 ::
    _t0 :: _t1 :: _d0 :: _d1 :: _c0 :: _c1 :: _c2 :: _c3 ::
    s0 :: s1 :: s2 :: s3 :: _u0 :: _u1 :: _u2 :: _u3 ::
    n0 :: n1 :: e0 :: e1 :: rest =>
      ⟨rest.take (n0 + 256 * n1),
       (rest.drop (n0 + 256 * n1 + (e0 + 256 * e1))).take
         (s0 + 256 * s1 + 65536 * s2 + 16777216 * s3)⟩ ::
        unzipGo fuel
          ((rest.drop (n0 + 256 * n1 + (e0 + 256 * e1))).drop
            (s0 + 256 * s1 + 65536 * s2 + 16777216 * s3))
  | _ + 1, _ => []

/-- Sequentially parse the local file entries at the head of `b`: stop at the
first position that does not carry a complete local header. -/
def unzipEntries (b : Bytes) : List ZFile :=
  unzipGo b.length b

/-! ### Streaming multi-order ZIP builder (`export-evidence-all.js` lines 56–151)

`addFile` enqueues a fixed 14-byte prefix, then CRC, the two size fields,
the name length, a zero extra length, the name and the data; it pushes
**12** pieces onto the `central` array per file and advances the running
offset by the full local-entry size. -/

/-- The bytes one `addFile` call enqueues for the local entry. -/
def streamLocalEntry (f : ZFile) : Bytes :=
  [80, 75, 3, 4, 20, 0, 0, 0, 0, 0, 0, 0, 0, 0] ++
    writeU32 (crc32 f.data) ++ writeU32 f.data.length ++
    writeU32 f.data.length ++ writeU16 f.name.length ++ writeU16 0 ++
    f.name ++ f.data

/-- The twelve pieces one `addFile` call pushes onto the `central` array
(the 16-byte `cen` prefix, CRC, sizes, name length, four zero u16 fields,
zero external attributes, the recorded offset, and the name bytes). -/
def streamCentralPieces (f : ZFile) (offset : Nat) : List Bytes :=
  [[80, 75, 1, 2, 20, 0, 20, 0, 0, 0, 0, 0, 0, 0, 0, 0],
   writeU32 (crc32 f.data), writeU32 f.data.length, writeU32 f.data.length,
   writeU16 f.name.length, writeU16 0, writeU16 0, writeU16 0, writeU16 0,
   writeU32 0, writeU32 offset, f.name]

/-- The `central` array after all `addFile` calls, threading the running
offset (14-byte prefix + 4 + 4 + 4 + 2 + 2 + name + data per file). -/
def streamCentral : List ZFile → Nat → List Bytes
  | [], _ => []
  | f :: fs, offset =>
      streamCentralPieces f offset ++
        streamCentral fs (offset + (30 + f.name.length + f.data.length))

/-- All local-entry bytes the stream emits before the central directory. -/
def streamLocals (files : List ZFile) : Bytes :=
  (files.map streamLocalEntry).flatten

/-- The streaming builder's EOCD record.  The source computes the entry
count as `writeU16(central.length / 13)`: `central.length` is the number of
array *pieces* (12 per file) and JS `/` is real division, truncated toward
zero by the `ToInt32` conversion inside `writeU16` — modelled by `Nat`
division. -/
def streamEocd (files : List ZFile) : Bytes :=
  [80, 75, 5, 6, 0, 0, 0, 0] ++
    writeU16 ((streamCentral files 0).length / 13) ++
    writeU16 ((streamCentral files 0).length / 13) ++
    writeU32 ((streamCentral files 0).flatten).length ++
    writeU32 (streamLocals files).length ++ [0, 0]

/-- The full byte stream produced by `export-evidence-all.js` for a list of
already-fetched per-order files. -/
def streamZip (files : List ZFile) : Bytes :=
  streamLocals files ++ (streamCentral files 0).flatten ++ streamEocd files

/-- The value stored in the EOCD "total entries" field of the streaming
builder (read back little-endian; the field starts at byte 8 of the EOCD
record). -/
def streamEocdEntryCount (files : List ZFile) : Nat :=
  readU16 (streamEocd files) 8

/-! ### JSON values and `JSON.stringify(rows, null, 2)`

D1 rows are JS objects mapping column names to scalars (`null`, numbers,
strings); both the Collector (`export-evidence.js` line 191) and the
Verifier (`verify-evidence.js` `jsonBytesFromRows`, line 32) serialize a
row array with `JSON.stringify(rows, null, 2)`. -/

/-- A D1 scalar value. -/
inductive JVal where
  | null : JVal
  | num : Int → JVal
  | str : String → JVal
deriving DecidableEq, Repr

/-- A result row: an ordered mapping from column name to scalar, as JS
object insertion order preserves D1 column order. -/
abbrev Row := List (String × JVal)

/-- Lowercase hexadecimal digit. -/
def hexDigit (n : Nat) : Char :=
  if n < 10 then Char.ofNat (48 + n) else Char.ofNat (87 + n)

/-- `JSON.stringify` escaping of one character: quote, backslash and the
named control escapes, `\u00xx` for other control characters, everything
else verbatim. -/
def jsonEscapeChar (c : Char) : String :=
  if c = '"' then "\\\""
  else if c = '\\' then "\\\\"
  else if c = '\n' then "\\n"
  else if c = '\r' then "\\r"
  else if c = '\t' then "\\t"
  else if c.toNat = 8 then "\\b"
  else if c.toNat = 12 then "\\f"
  else if c.toNat < 32 then
    "\\u00" ++ String.mk [hexDigit (c.toNat / 16), hexDigit (c.toNat % 16)]
  else String.singleton c

/-- A JSON string literal. -/
def jsonQuote (s : String) : String :=
  "\"" ++ String.join (s.toList.map jsonEscapeChar) ++ "\""

/-- Serialization of one scalar. -/
def jsonScalar : JVal → String
  | .null => "null"
  | .num n => toString n
  | .str s => jsonQuote s

/-- One row rendered by `JSON.stringify(·, null, 2)` when the opening brace
sits at indentation `pad`. -/
def serializeRowAt (pad : String) (r : Row) : String :=
  if r.isEmpty then "\x7b\x7d"
  else
    "\x7b\n" ++
      String.intercalate ",\n"
        (r.map fun p => pad ++ "  " ++ jsonQuote p.1 ++ ": " ++ jsonScalar p.2) ++
      "\n" ++ pad ++ "\x7d"

/-- `JSON.stringify(rows, null, 2)` for an array of rows. -/
def serializeRows (rows : List Row) : String :=
  if rows.isEmpty then "[]"
  else
    "[\n" ++
      String.intercalate ",\n" (rows.map fun r => "  " ++ serializeRowAt "  " r) ++
      "\n]"

/-- UTF-8 encoding of one character (the standard 1–4 byte scheme). -/
def utf8Char (c : Char) : List Nat :=
  let n := c.toNat
  if n < 128 then [n]
  else if n < 2048 then [192 + n / 64, 128 + n % 64]
  else if n < 65536 then [224 + n / 4096, 128 + n / 64 % 64, 128 + n % 64]
  else [240 + n / 262144, 128 + n / 4096 % 64, 128 + n / 64 % 64, 128 + n % 64]

/-- `enc.encode(s)`: the UTF-8 bytes of a string. -/
def utf8 (s : String) : Bytes :=
  (s.data.map utf8Char).flatten

/-! ### Structured-record store (D1) and query semantics -/

/-- Column lookup in a row. -/
def rowGet (r : Row) (k : String) : Option JVal :=
  (r.find? (fun p => p.1 = k)).map (fun p => p.2)

/-- SQL `=` semantics: `NULL` compares equal to nothing. -/
def sqlEq (a b : JVal) : Bool :=
  match a, b with
  | .null, _ => false
  | _, .null => false
  | a, b => decide (a = b)

/-- `SELECT * FROM tbl WHERE col = v`, preserving the store's row order
(the order the statement returns rows in, absent an `ORDER BY`). -/
def selectWhere (tbl : List Row) (col : String) (v : JVal) : List Row :=
  tbl.filter (fun r =>
    match rowGet r col with
    | some w => sqlEq w v
    | none => false)

/-- The integer `id` column of a row (0 when absent or not a number). -/
def idOf (r : Row) : Int :=
  match rowGet r "id" with
  | some (.num n) => n
  | _ => 0

/-- `ORDER BY id ASC`. -/
def sortById (tbl : List Row) : List Row :=
  tbl.insertionSort (fun a b => idOf a ≤ idOf b)

/-- JS truthiness of a D1 scalar: `null`, `0` and `""` are falsy. -/
def truthy : JVal → Bool
  | .null => false
  | .num n => decide (n ≠ 0)
  | .str s => decide (s ≠ "")

/-- The four structured-record tables the export engine touches. -/
structure D1 where
  orders : List Row
  acceptance_records : List Row
  email_attempts : List Row
  verification_logs : List Row

/-- Collector query for `D1/orders.json`:
`SELECT * FROM orders WHERE order_id = ?`. -/
def exportOrdersRows (db : D1) (oid : String) : List Row :=
  selectWhere db.orders "order_id" (.str oid)

/-- Collector query for `D1/acceptance_records.json`:
`WHERE stripe_session_id = (SELECT stripe_session_id FROM orders WHERE
order_id = ? LIMIT 1)`.  The scalar subquery yields the first matching
order's `stripe_session_id` (or SQL `NULL` when no row matches, in which
case `=` matches nothing — `sqlEq` already makes `NULL` match nothing). -/
def exportAcceptanceRows (db : D1) (oid : String) : List Row :=
  match (selectWhere db.orders "order_id" (.str oid)).head? with
  | none => []
  | some r =>
      match rowGet r "stripe_session_id" with
      | none => []
      | some v => selectWhere db.acceptance_records "stripe_session_id" v

/-- Collector query for `D1/email_attempts.json`:
`SELECT * FROM email_attempts WHERE order_id = ?` — no `ORDER BY`. -/
def exportEmailRows (db : D1) (oid : String) : List Row :=
  selectWhere db.email_attempts "order_id" (.str oid)

/-- Collector query for `D1/verification_logs.json`:
`SELECT * FROM verification_logs WHERE order_id = ?` — no `ORDER BY`. -/
def exportVerifLogRows (db : D1) (oid : String) : List Row :=
  selectWhere db.verification_logs "order_id" (.str oid)

/-! ### Verifier-side table rebuild (`verify-evidence.js`, `buildD1TableJson`,
lines 64–105) -/

/-- The Verifier's `acceptance_records` rebuild: use
`ordersRow.stripe_session_id` when truthy; otherwise re-query the same first
order row for the column, which yields the same (still falsy or absent)
value, so the rebuild returns `[]`; with a truthy session id, run
`SELECT * FROM acceptance_records WHERE stripe_session_id = ?`. -/
def verifierAcceptanceRows (db : D1) (ordersRow : Option Row) : List Row :=
  match ordersRow with
  | none => []
  | some r =>
      match rowGet r "stripe_session_id" with
      | none => []
      | some v =>
          if truthy v then selectWhere db.acceptance_records "stripe_session_id" v
          else []

/-- `buildD1TableJson(db, table, order_id, ordersRow)`: the Verifier's
re-derivation of each `D1/<table>.json` row set.  Note `email_attempts` and
`verification_logs` add `ORDER BY id ASC`, which the Collector's queries do
not have.  The final fallback (`SELECT * FROM <table> WHERE order_id = ?`)
targets a table that does not exist in this schema, so it throws and the
surrounding catch returns `[]`. -/
def buildD1TableJson (db : D1) (table oid : String) (ordersRow : Option Row) :
    List Row :=
  if table = "orders" then selectWhere db.orders "order_id" (.str oid)
  else if table = "acceptance_records" then verifierAcceptanceRows db ordersRow
  else if table = "email_attempts" then
    sortById (selectWhere db.email_attempts "order_id" (.str oid))
  else if table = "verification_logs" then
    sortById (selectWhere db.verification_logs "order_id" (.str oid))
  else []

/-- The byte sequence the Collector serializes and hashes for
`D1/<table>.json` (`dumpTable`, `export-evidence.js` lines 184–220). -/
def collectorTableBytes (db : D1) (oid table : String) : Bytes :=
  if table = "orders" then utf8 (serializeRows (exportOrdersRows db oid))
  else if table = "acceptance_records" then
    utf8 (serializeRows (exportAcceptanceRows db oid))
  else if table = "email_attempts" then
    utf8 (serializeRows (exportEmailRows db oid))
  else if table = "verification_logs" then
    utf8 (serializeRows (exportVerifLogRows db oid))
  else []

/-- The byte sequence the Verifier re-derives for `D1/<table>.json`
(`jsonBytesFromRows(buildD1TableJson(...))`, `verify-evidence.js` lines
28–33 and 189–195); `ordersRow` is the first order row fetched once before
the loop. -/
def verifierTableBytes (db : D1) (oid table : String) : Bytes :=
  utf8 (serializeRows (buildD1TableJson db table oid
    ((selectWhere db.orders "order_id" (.str oid)).head?)))

/-! ### Evidence collector (`export-evidence.js` `onRequestGet`) -/

/-- One in-memory evidence file: archive entry name and content bytes. -/
structure NamedFile where
  name : String
  data : Bytes
deriving DecidableEq, Repr

/-- One chain-of-custody step: `step(action, meta)` pushes
`{action, at: new Date().toISOString(), ...meta}`.  The wall-clock `at`
field and non-string meta values (which JS would stringify) are abstracted
to strings; claims only inspect `action` and the `name`/`error` entries. -/
structure CustodyStep where
  action : String
  meta : List (String × String)
deriving DecidableEq, Repr

/-- `safeString(s)`: empty for `null`/missing, otherwise `String(s)`. -/
def safeString : JVal → String
  | .null => ""
  | .num n => toString n
  | .str s => s

/-- A CSV source field: missing columns read as `undefined`, which
`safeString` also maps to the empty string. -/
def csvField (r : Row) (k : String) : String :=
  match rowGet r k with
  | some v => safeString v
  | none => ""

/-- A double-quoted CSV cell with `"` doubled (the `replace(/"/g, '""')`
calls). -/
def csvQuote (s : String) : String :=
  "\"" ++ s.replace "\"" "\"\"" ++ "\""

/-- JS truthiness of a row column (missing is falsy). -/
def rowTruthy (r : Row) (k : String) : Bool :=
  match rowGet r k with
  | some v => truthy v
  | none => false

/-- `D1/orders-summary.csv`: header line plus one line per order row; the
`created_at` cell is quoted without doubling embedded quotes, exactly as in
the source. -/
def ordersCsv (rows : List Row) : String :=
  String.intercalate "\n"
    ("order_id,email,amount,currency,verified,created_at" ::
      rows.map (fun rr =>
        String.intercalate ","
          [csvQuote (csvField rr "order_id"),
           csvQuote (csvField rr "email"),
           csvField rr "amount",
           csvField rr "currency",
           (if rowTruthy rr "verified" then "1" else "0"),
           "\"" ++ csvField rr "created_at" ++ "\""]))

/-! ### Blob store (R2) -/

/-- One stored object. -/
structure R2Obj where
  key : String
  data : Bytes
deriving DecidableEq, Repr

/-- The blob store: a set of objects, listed in ascending key order. -/
abbrev R2Store := List R2Obj

/-- `r2.get(key)`. -/
def r2get (store : R2Store) (k : String) : Option Bytes :=
  (store.find? (fun o => o.key = k)).map (fun o => o.data)

/-- `r2.list({prefix})`: every object whose key extends the prefix, in
ascending key order. -/
def r2listPrefix (store : R2Store) (pre : String) : List R2Obj :=
  (store.filter (fun o => pre.isPrefixOf o.key)).insertionSort
    (fun a b => a.key ≤ b.key)

/-- Split a character list on a separator character (JS
`String.prototype.split` with a one-character separator: an empty input
gives one empty field, a trailing separator a trailing empty field). -/
def splitChars (sep : Char) : List Char → List (List Char)
  | [] => [[]]
  | c :: cs =>
      let r := splitChars sep cs
      if c = sep then [] :: r
      else (c :: r.headD []) :: r.tail

/-- JS `s.split(sep)` for a one-character separator. -/
def strSplit (s : String) (sep : Char) : List String :=
  (splitChars sep s.data).map (fun l => ⟨l⟩)

/-- JS `s.startsWith(pre)`. -/
def strStartsWith (s pre : String) : Bool :=
  pre.data.isPrefixOf s.data

/-- `obj.key.split("/").pop()`. -/
def shortName (k : String) : String :=
  (strSplit k '/').getLastD ""

/-- `fetchR2Prefix(prefix, label)`: one evidence file per listed object,
named `R2/<label>/<short>`; in this pure store model every listed key also
fetches successfully. -/
def r2PhaseFiles (store : R2Store) (pre label : String) : List NamedFile :=
  (r2listPrefix store pre).map (fun o =>
    ⟨"R2/" ++ label ++ "/" ++ shortName o.key, o.data⟩)

/-! ### Report generation -/

/-- `JSON.stringify(orderObj, null, 2)` where `orderObj` is the first order
row or `null`. -/
def stringifyOrderObj : Option Row → String
  | none => "null"
  | some r => serializeRowAt "" r

/-- The HTML report template (`export-evidence.js` lines 254–282); the two
`new Date().toISOString()` calls of the handler are abstracted by the single
`nowStr` parameter.  Literal braces are written `\x7b`/`\x7d`. -/
def reportHtml (oid nowStr : String) (orderObj : Option Row)
    (files : List NamedFile) : String :=
  "\n  <!doctype html>\n  <html>\n  <head>\n    <meta charset=\"utf-8\">\n" ++
  "    <title>Order Evidence Report — " ++ oid ++ "</title>\n" ++
  "    <meta name=\"viewport\" content=\"width=device-width,initial-scale=1\">\n" ++
  "    <style>\n" ++
  "      body\x7bfont-family:Inter,system-ui,Arial;margin:18px;color:#111\x7d\n" ++
  "      .meta\x7bfont-size:13px;color:#666\x7d\n" ++
  "      pre\x7bbackground:#f8fbfa;padding:12px;border-radius:8px;overflow:auto\x7d\n" ++
  "      h1\x7bfont-size:20px;margin-bottom:6px\x7d\n" ++
  "    </style>\n  </head>\n  <body>\n    <h1>Order Evidence Report</h1>\n" ++
  "    <div class=\"meta\">Order ID: <strong>" ++ oid ++
  "</strong> • Generated: " ++ nowStr ++ "</div>\n    <hr>\n" ++
  "    <h3>Order snapshot</h3>\n    <pre>" ++ stringifyOrderObj orderObj ++
  "</pre>\n    <h3>Included files</h3>\n    <ul>\n      " ++
  String.join (files.map (fun f => "<li>" ++ f.name ++ "</li>")) ++
  "\n    </ul>\n    <hr>\n" ++
  "    <p style=\"font-size:12px;color:#666\">TechBrot — internal evidence report</p>\n" ++
  "  </body>\n  </html>\n  "

/-- The plain-text placeholder written when PDF rendering throws. -/
def pdfFallback (e oid : String) : String :=
  "PDF generation failed: " ++ e ++
    "\n\nIncluded HTML report available as report/" ++ oid ++ ".html"

/-! ### Digest ledger (`export-evidence.js` lines 304–327) -/

/-- JS object assignment `m[k] = v`: update in place if the key exists
(keeping its first-insertion position), otherwise append. -/
def jsSet (m : List (String × Option String)) (k : String) (v : Option String) :
    List (String × Option String) :=
  if m.any (fun p => p.1 = k) then
    m.map (fun p => if p.1 = k then (k, v) else p)
  else m ++ [(k, v)]

/-- JS object read `m[k]`: `some` of the stored value when the key exists. -/
def jsGet (m : List (String × Option String)) (k : String) :
    Option (Option String) :=
  (m.find? (fun p => p.1 = k)).map (fun p => p.2)

/-- The hash loop with its running state (`shaMap`, appended custody
steps): for each file in order, either record the hex digest and a
`hash_ok` step, or — when the hash oracle throws — record `null` and a
`hash_error` step carrying the message, and continue. -/
def computeShaMapGo (hash : Bytes → Except String String) :
    List NamedFile → List (String × Option String) × List CustodyStep →
      List (String × Option String) × List CustodyStep
  | [], acc => acc
  | f :: fs, acc =>
      computeShaMapGo hash fs
        (match hash f.data with
         | .ok h =>
             (jsSet acc.1 f.name (some h),
              acc.2 ++ [⟨"hash_ok", [("name", f.name), ("sha256", h)]⟩])
         | .error e =>
             (jsSet acc.1 f.name none,
              acc.2 ++ [⟨"hash_error", [("name", f.name), ("error", e)]⟩]))

/-- The hash loop of the digest phase, started with an empty map and no
steps. -/
def computeShaMap (hash : Bytes → Except String String)
    (files : List NamedFile) :
    List (String × Option String) × List CustodyStep :=
  computeShaMapGo hash files ([], [])

/-- The digest the loop records for one file: `some` hex digest on success,
`none` when the hash oracle throws. -/
def digestOf (hash : Bytes → Except String String) (f : NamedFile) :
    Option String :=
  match hash f.data with
  | .ok h => some h
  | .error _ => none

/-- The custody step the loop appends for one file. -/
def stepOf (hash : Bytes → Except String String) (f : NamedFile) :
    CustodyStep :=
  match hash f.data with
  | .ok h => ⟨"hash_ok", [("name", f.name), ("sha256", h)]⟩
  | .error e => ⟨"hash_error", [("name", f.name), ("error", e)]⟩

/-- The `index.json` manifest object. -/
structure IndexObj where
  order_id : String
  generated_at : String
  files : List String
  sha256 : List (String × Option String)
  chain_of_custody : List CustodyStep
deriving DecidableEq, Repr

/-- The digest phase of the export: hash every collected file, build the
manifest (whose `files` list snapshots the names collected so far), and
append the serialized manifest itself as one more evidence file named
`index.json`.  `iser` abstracts `JSON.stringify(indexObj, null, 2)` as a
byte serialization of the manifest object. -/
def digestPhase (hash : Bytes → Except String String)
    (iser : IndexObj → Bytes) (oid nowStr : String)
    (files : List NamedFile) (chain : List CustodyStep) :
    List NamedFile × IndexObj × List CustodyStep :=
  let chain1 := chain ++ [⟨"compute_hashes", []⟩]
  let hs := computeShaMap hash files
  let chain2 := chain1 ++ hs.2
  let idx : IndexObj := ⟨oid, nowStr, files.map (fun f => f.name), hs.1, chain2⟩
  (files ++ [⟨"index.json", iser idx⟩], idx,
   chain2 ++ [⟨"index_added", []⟩])

/-! ### The export handler (`export-evidence.js` `onRequestGet`,
lines 161–345) -/

/-- Everything the export handler produces: the final evidence-file list
(manifest last), the manifest object, the custody log, the returned ZIP
bytes, and the list of blob-store writes the handler performs. -/
structure ExportResult where
  files : List NamedFile
  index : IndexObj
  chain : List CustodyStep
  zip : Bytes
  r2Puts : List (String × Bytes)
deriving Repr

/-- The collection phase of the export: D1 dumps (with the CSV summary for
`orders`), the two R2 prefixes, the HTML report, and the PDF (or its
fallback placeholder) — the complete evidence-file list before the digest
phase. -/
def collectFiles (db : D1) (r2 : R2Store) (pdf : Except String Bytes)
    (oid nowStr : String) : List NamedFile :=
  let ordersRows := exportOrdersRows db oid
  let d1Files : List NamedFile :=
    [⟨"D1/orders.json", utf8 (serializeRows ordersRows)⟩,
     ⟨"D1/orders-summary.csv", utf8 (ordersCsv ordersRows)⟩,
     ⟨"D1/acceptance_records.json", utf8 (serializeRows (exportAcceptanceRows db oid))⟩,
     ⟨"D1/email_attempts.json", utf8 (serializeRows (exportEmailRows db oid))⟩,
     ⟨"D1/verification_logs.json", utf8 (serializeRows (exportVerifLogRows db oid))⟩]
  let r2Files :=
    r2PhaseFiles r2 ("email_attempts/" ++ oid) "email_attempts" ++
      r2PhaseFiles r2 ("verification/" ++ oid) "verification"
  let collected0 := d1Files ++ r2Files
  let html := reportHtml oid nowStr ordersRows.head? collected0
  let collected1 := collected0 ++ [⟨"report/" ++ oid ++ ".html", utf8 html⟩]
  let pdfBytes := match pdf with
    | .ok b => b
    | .error e => utf8 (pdfFallback e oid)
  collected1 ++ [⟨"report/" ++ oid ++ ".pdf", pdfBytes⟩]

/-- The full export pipeline for a supplied `order_id`: collection, the
digest phase with the appended manifest, and the ZIP build.  `hash`
abstracts `crypto.subtle` SHA-256, `pdf` the browser rendering
collaborator, `iser` manifest serialization, `nowStr` the wall clock.
`r2Puts` lists every `r2.put` the handler performs: the source contains
none — the manifest is only pushed into the ZIP's file list. -/
def exportEvidence (db : D1) (r2 : R2Store)
    (hash : Bytes → Except String String) (pdf : Except String Bytes)
    (iser : IndexObj → Bytes) (oid nowStr : String) : ExportResult :=
  let ordersRows := exportOrdersRows db oid
  let collected := collectFiles db r2 pdf oid nowStr
  let chain0 : List CustodyStep :=
    [⟨"export_started", [("order_id", oid)]⟩,
     ⟨"dump_table_start", [("table", "orders")]⟩,
     ⟨"dump_table_done", [("table", "orders"), ("rows", toString ordersRows.length)]⟩,
     ⟨"dump_table_start", [("table", "acceptance_records")]⟩,
     ⟨"dump_table_done", [("table", "acceptance_records"), ("rows", toString (exportAcceptanceRows db oid).length)]⟩,
     ⟨"dump_table_start", [("table", "email_attempts")]⟩,
     ⟨"dump_table_done", [("table", "email_attempts"), ("rows", toString (exportEmailRows db oid).length)]⟩,
     ⟨"dump_table_start", [("table", "verification_logs")]⟩,
     ⟨"dump_table_done", [("table", "verification_logs"), ("rows", toString (exportVerifLogRows db oid).length)]⟩] ++
    ([⟨"r2_list_start", [("prefix", "email_attempts/" ++ oid)]⟩] ++
      (r2listPrefix r2 ("email_attempts/" ++ oid)).map (fun o =>
        ⟨"r2_get_ok", [("key", o.key), ("size", toString o.data.length)]⟩) ++
     [⟨"r2_list_done", [("prefix", "email_attempts/" ++ oid)]⟩] ++
     [⟨"r2_list_start", [("prefix", "verification/" ++ oid)]⟩] ++
      (r2listPrefix r2 ("verification/" ++ oid)).map (fun o =>
        ⟨"r2_get_ok", [("key", o.key), ("size", toString o.data.length)]⟩) ++
     [⟨"r2_list_done", [("prefix", "verification/" ++ oid)]⟩]) ++
    [⟨"generate_html_report", []⟩,
     ⟨"generate_pdf", []⟩] ++
    (match pdf with
     | .ok b => [⟨"generate_pdf_ok", [("bytes", toString b.length)]⟩]
     | .error e => [⟨"generate_pdf_error", [("error", e)]⟩])
  let d := digestPhase hash iser oid nowStr collected chain0
  ⟨d.1, d.2.1,
   d.2.2 ++ [⟨"build_zip", []⟩],
   buildZipUint8Array (d.1.map (fun f => ⟨utf8 f.name, f.data⟩)),
   []⟩

/-! ### Verifier (`verify-evidence.js` `onRequestGet`, lines 107–279) -/

/-- One per-file result pushed onto `results` (`verified` is the JS
true/false/null three-state). -/
structure VResult where
  file : String
  verified : Option Bool
  note : Option String
  errMsg : Option String
deriving DecidableEq, Repr

/-- One entry pushed onto `mismatches`. -/
structure Mismatch where
  file : String
  reason : Option String
  expected : Option String
  actual : Option String
  errMsg : Option String
deriving DecidableEq, Repr

/-- The verification audit the handler assembles and persists. -/
structure Audit where
  order_id : String
  index_key : String
  ok : Bool
  mismatches : List Mismatch
  results : List VResult
deriving Repr

/-- The candidate manifest keys `fetchIndexJsonFromR2` probes, in order. -/
def indexCandidates (oid : String) : List String :=
  ["verification/" ++ oid ++ "/index.json",
   "email_attempts/" ++ oid ++ "/index.json",
   "evidence/" ++ oid ++ "/index.json",
   "index.json"]

/-- `fetchIndexJsonFromR2(r2, order_id)`: the first candidate key holding an
object, with that object's bytes. -/
def fetchIndexJsonFromR2 (r2 : R2Store) (oid : String) :
    Option (String × Bytes) :=
  ((indexCandidates oid).filterMap (fun k =>
    (r2get r2 k).map (fun b => (k, b)))).head?

/-- `expectedHashes[fname] || null`: missing keys, recorded `null` digests
and the falsy empty string all read back as "no expected hash". -/
def getExpected (expected : List (String × Option String)) (fname : String) :
    Option String :=
  match jsGet expected fname with
  | some (some h) => if h = "" then none else some h
  | _ => none

/-- JS `String.prototype.includes`. -/
def strContains (s pat : String) : Bool :=
  s.toList.tails.any (fun t => pat.toList.isPrefixOf t)

/-- `fname.slice(3).replace(/\.json$/, "")`. -/
def stripJsonSuffix (s : String) : String :=
  if s.endsWith ".json" then s.dropRight 5 else s

/-- Process one manifest file name: classify it by prefix, re-derive its
bytes, recompute and compare the digest; returns the pushed result and the
pushed mismatch, if any.  The surrounding `try/catch` turns a hash-oracle
error into a per-file error result and mismatch. -/
def verifyOne (db : D1) (r2 : R2Store) (hash : Bytes → Except String String)
    (oid : String) (ordersRow : Option Row)
    (expected : List (String × Option String)) (fname : String) :
    VResult × Option Mismatch :=
  if strStartsWith fname "R2/" then
    let parts := strSplit fname '/'
    if parts.length < 3 then
      (⟨fname, some false, none, some "invalid R2 path"⟩,
       some ⟨fname, some "invalid R2 path", none, none, none⟩)
    else
      let label := parts.getD 1 ""
      let short := String.intercalate "/" (parts.drop 2)
      let key := label ++ "/" ++ oid ++ "/" ++ short
      match r2get r2 key with
      | none =>
          (⟨fname, some false, none, some "missing in R2"⟩,
           some ⟨fname, some "missing in R2", none, none, none⟩)
      | some data =>
          match hash data with
          | .error e =>
              (⟨fname, some false, none, some e⟩,
               some ⟨fname, none, none, none, some e⟩)
          | .ok computed =>
              let exp := getExpected expected fname
              let okv : Option Bool := exp.map (fun x => computed = x)
              (⟨fname, some (okv = some true), none, none⟩,
               if okv = some false then
                 some ⟨fname, none, exp, some computed, none⟩
               else none)
  else if strStartsWith fname "D1/" then
    let table := stripJsonSuffix (fname.drop 3)
    let rows := buildD1TableJson db table oid ordersRow
    match hash (utf8 (serializeRows rows)) with
    | .error e =>
        (⟨fname, some false, none, some e⟩,
         some ⟨fname, none, none, none, some e⟩)
    | .ok computed =>
        let exp := getExpected expected fname
        let okv : Option Bool := exp.map (fun x => computed = x)
        (⟨fname, some (okv = some true), none, none⟩,
         if okv = some false then
           some ⟨fname, none, exp, some computed, none⟩
         else none)
  else if strStartsWith fname "report/" ∨ strStartsWith fname "report\\" ∨
      strStartsWith fname "report" then
    (⟨fname,
      (match jsGet expected fname with
       | some (some h) => if h = "" then some true else none
       | _ => some true),
      some "report file — not stored in R2 for direct verification (index.json only)",
      none⟩, none)
  else
    let mapped : Option String :=
      if strContains fname "email_attempts" then
        some ("email_attempts/" ++ oid ++ "/" ++ shortName fname)
      else if strContains fname "verification" then
        some ("verification/" ++ oid ++ "/" ++ shortName fname)
      else none
    match mapped with
    | some key =>
        match r2get r2 key with
        | none =>
            (⟨fname, some false, none, some "missing in R2"⟩,
             some ⟨fname, some "missing in R2", none, none, none⟩)
        | some data =>
            match hash data with
            | .error e =>
                (⟨fname, some false, none, some e⟩,
                 some ⟨fname, none, none, none, some e⟩)
            | .ok computed =>
                let exp := getExpected expected fname
                let okv : Option Bool := exp.map (fun x => computed = x)
                (⟨fname, some (okv = some true), none, none⟩,
                 if okv = some false then
                   some ⟨fname, none, exp, some computed, none⟩
                 else none)
    | none =>
        (⟨fname, none,
          some "unknown path type — cannot verify automatically", none⟩, none)

/-- The verification loop over the manifest's file list: one result per
file, mismatches collected in order. -/
def verifyLoop (db : D1) (r2 : R2Store) (hash : Bytes → Except String String)
    (oid : String) (ordersRow : Option Row)
    (expected : List (String × Option String)) (fileList : List String) :
    List VResult × List Mismatch :=
  ((fileList.map (verifyOne db r2 hash oid ordersRow expected)).map
      (fun p => p.1),
   (fileList.map (verifyOne db r2 hash oid ordersRow expected)).filterMap
      (fun p => p.2))

/-- The audit assembled after the loop: `ok` is
`mismatches.length === 0`. -/
def mkAudit (oid key : String) (rm : List VResult × List Mismatch) : Audit :=
  ⟨oid, key, rm.2.length = 0, rm.2, rm.1⟩

/-- A parsed manifest, as consumed by the loop (`indexJson.files`,
`indexJson.sha256 || {}`). -/
structure ParsedIndex where
  files : List String
  sha256 : List (String × Option String)

/-- The verifier's terminal behaviours: manifest not found (404), unusable
manifest (parse error / invalid format), or an audit (persisted under a
timestamped `verification/<order_id>/verify-result-<ts>.json` key). -/
inductive VerifyOutcome where
  | notFound
  | badIndex
  | audit (a : Audit) (auditKey : String)

/-- The verify-evidence handler after admin authentication: locate the
manifest, parse it (`parse` abstracts `JSON.parse` plus the
`Array.isArray(indexJson.files)` format check), fetch the first order row,
run the loop and assemble the audit. -/
def verifyEvidence (db : D1) (r2 : R2Store)
    (hash : Bytes → Except String String)
    (parse : Bytes → Option ParsedIndex) (oid tsStr : String) :
    VerifyOutcome :=
  match fetchIndexJsonFromR2 r2 oid with
  | none => .notFound
  | some kb =>
      match parse kb.2 with
      | none => .badIndex
      | some idx =>
          let ordersRow := (selectWhere db.orders "order_id" (.str oid)).head?
          .audit (mkAudit oid kb.1
              (verifyLoop db r2 hash oid ordersRow idx.sha256 idx.files))
            ("verification/" ++ oid ++ "/verify-result-" ++ tsStr ++ ".json")

/-! ### Customer verification (`verify-order.js` `onRequestPost`,
lines 15–215) -/

/-- The columns of an `orders` row that the verification handler reads or
writes.  `token_expires_at` is modelled as the parsed epoch value of the
stored datetime (`none` for SQL `NULL` / empty). -/
structure OrderRow where
  verification_token : Option String
  token_expires_at : Option Int
  email : Option String
  verified : Nat
  verified_at : Option String
  verification_ip : Option String
  verification_user_agent : Option String
  verification_fingerprint_hash : Option String
deriving DecidableEq, Repr

/-- The `UPDATE orders SET ...` of step 7: mark verified, clear the token
and its expiry, record the request metadata. -/
def markVerified (row : OrderRow) (nowStr : String) (ip ua eh : Option String) :
    OrderRow :=
  { row with
      verified := 1,
      verified_at := some nowStr,
      verification_token := none,
      token_expires_at := none,
      verification_ip := ip,
      verification_user_agent := ua,
      verification_fingerprint_hash := eh }

/-- One run of the verification handler against the stored row for the
requested order (`none` when no row matches): returns the HTTP status and
the stored row afterwards.  Falsy checks follow JS: an absent or empty
stored token yields 404; expiry is only checked when non-null; the R2
evidence write and log inserts do not affect the order row. -/
def verifyOrderOnce (oid token : String) (rowOpt : Option OrderRow)
    (now : Int) (nowStr : String) (ip ua eh : Option String) :
    Nat × Option OrderRow :=
  if oid = "" ∨ token = "" then (400, rowOpt)
  else
    match rowOpt with
    | none => (404, none)
    | some row =>
        match row.verification_token with
        | none => (404, some row)
        | some t =>
            if t = "" then (404, some row)
            else if t ≠ token then (403, some row)
            else
              match row.token_expires_at with
              | some e =>
                  if e < now then (410, some row)
                  else (200, some (markVerified row nowStr ip ua eh))
              | none => (200, some (markVerified row nowStr ip ua eh))

/-- A name carrying one of the three collection prefixes. -/
def evidencePrefixed (n : String) : Prop :=
  (∃ r, n = "D1/" ++ r) ∨ (∃ r, n = "R2/" ++ r) ∨ (∃ r, n = "report/" ++ r)

/-! ### Concrete inputs used in counterexamples -/

/-- A 65536-byte file name (the ASCII letter `a` repeated): one past what
the 16-bit name-length field of a local header can hold. -/
def bigName : Bytes := List.replicate 65536 97

/-- A store whose `email_attempts` table returns its two matching rows out
of `id` order for the plain `WHERE order_id = ?` query. -/
def cexDb : D1 :=
  ⟨[], [],
   [[("id", .num 2), ("order_id", .str "o")],
    [("id", .num 1), ("order_id", .str "o")]],
   []⟩

/-! ## Theorems -/

/-- Byte reconstruction for a 16-bit little-endian field. -/
theorem le2_decomp (m : Nat) (h : m < 65536) :
    m % 65536 % 256 + 256 * (m % 65536 / 256) = m := by omega

/-- Byte reconstruction for a 32-bit little-endian field. -/
theorem le4_decomp (m : Nat) (h : m < 4294967296) :
    m % 4294967296 % 256 + 256 * (m % 4294967296 / 256 % 256) +
      65536 * (m % 4294967296 / 65536 % 256) +
      16777216 * (m % 4294967296 / 16777216) = m := by omega

/-- A local entry followed by anything, written out byte by byte. -/
theorem localEntry_append (f : ZFile) (rest : Bytes) :
    localEntry f ++ rest =
      80 :: 75 :: 3 :: 4 :: 20 :: 0 :: 0 :: 0 :: 0 :: 0 :: 0 :: 0 :: 0 :: 0 ::
      (crc32 f.data % 4294967296 % 256) ::
      (crc32 f.data % 4294967296 / 256 % 256) ::
      (crc32 f.data % 4294967296 / 65536 % 256) ::
      (crc32 f.data % 4294967296 / 16777216) ::
      (f.data.length % 4294967296 % 256) ::
      (f.data.length % 4294967296 / 256 % 256) ::
      (f.data.length % 4294967296 / 65536 % 256) ::
      (f.data.length % 4294967296 / 16777216) ::
      (f.data.length % 4294967296 % 256) ::
      (f.data.length % 4294967296 / 256 % 256) ::
      (f.data.length % 4294967296 / 65536 % 256) ::
      (f.data.length % 4294967296 / 16777216) ::
      (f.name.length % 65536 % 256) :: (f.name.length % 65536 / 256) ::
      0 :: 0 :: (f.name ++ (f.data ++ rest)) := by
  simp [localEntry, localHeader, writeU16, writeU32]

/-- The reader's one-step reduction on a byte sequence opening with a local
header. -/
theorem unzipGo_step (fuel c0 c1 c2 c3 s0 s1 s2 s3 u0 u1 u2 u3 n0 n1 e0 e1 : Nat)
    (rest : Bytes) :
    unzipGo (fuel + 1)
      (80 :: 75 :: 3 :: 4 :: 20 :: 0 :: 0 :: 0 :: 0 :: 0 :: 0 :: 0 :: 0 :: 0 ::
       c0 :: c1 :: c2 :: c3 :: s0 :: s1 :: s2 :: s3 :: u0 :: u1 :: u2 :: u3 ::
       n0 :: n1 :: e0 :: e1 :: rest) =
      ⟨rest.take (n0 + 256 * n1),
       (rest.drop (n0 + 256 * n1 + (e0 + 256 * e1))).take
         (s0 + 256 * s1 + 65536 * s2 + 16777216 * s3)⟩ ::
        unzipGo fuel
          ((rest.drop (n0 + 256 * n1 + (e0 + 256 * e1))).drop
            (s0 + 256 * s1 + 65536 * s2 + 16777216 * s3)) := rfl

/-- Reading one in-bounds local entry recovers the file and continues
exactly at the tail. -/
theorem unzipGo_localEntry (fuel : Nat) (f : ZFile) (rest : Bytes)
    (hn : f.name.length < 65536) (hd : f.data.length < 4294967296) :
    unzipGo (fuel + 1) (localEntry f ++ rest) = f :: unzipGo fuel rest := by
  rw [localEntry_append, unzipGo_step,
      le2_decomp f.name.length hn, le4_decomp f.data.length hd]
  simp [List.take_left, List.drop_left]

/-- The reader stops at a central directory record. -/
theorem unzipGo_centralEntry (fuel : Nat) (f : ZFile) (off : Nat) (rest : Bytes) :
    unzipGo fuel (centralEntry f off ++ rest) = [] := by
  cases fuel <;> rfl

/-- The reader stops at an end-of-central-directory record. -/
theorem unzipGo_eocd (fuel count csize coff : Nat) :
    unzipGo fuel (eocdRecord count csize coff) = [] := by
  cases fuel <;> rfl

/-- The reader stops at a byte sequence opening with `97` (`'a'`). -/
theorem unzipGo_97 (fuel : Nat) (rest : Bytes) :
    unzipGo fuel (97 :: rest) = [] := by
  cases fuel <;> rfl

/-- A local entry occupies its 30-byte header plus name plus data. -/
theorem localEntry_length (f : ZFile) :
    (localEntry f).length = 30 + f.name.length + f.data.length := by
  simp [localEntry, localHeader, writeU16, writeU32]
  omega

/-- There are at least as many emitted local bytes as files. -/
theorem length_le_flatten_localEntry (gs : List ZFile) :
    gs.length ≤ ((gs.map localEntry).flatten).length := by
  induction gs with
  | nil => simp
  | cons f fs ih =>
      have := localEntry_length f
      simp only [List.map_cons, List.flatten_cons, List.length_append,
        List.length_cons]
      omega

/-- Reading a concatenation of in-bounds local entries followed by a
non-entry tail recovers exactly the file list. -/
theorem unzipGo_flatten (gs : List ZFile) (tail : Bytes) (fuel : Nat)
    (hfuel : gs.length ≤ fuel)
    (hgood : ∀ g ∈ gs, g.name.length < 65536 ∧ g.data.length < 4294967296)
    (htail : ∀ k, unzipGo k tail = []) :
    unzipGo fuel ((gs.map localEntry).flatten ++ tail) = gs := by
  induction gs generalizing fuel with
  | nil => simpa using htail fuel
  | cons f fs ih =>
      obtain ⟨fuel', rfl⟩ : ∃ k, fuel = k + 1 := by
        cases fuel with
        | zero => simp at hfuel
        | succ k => exact ⟨k, rfl⟩
      have hf := hgood f (by simp)
      rw [List.map_cons, List.flatten_cons, List.append_assoc,
          unzipGo_localEntry fuel' f _ hf.1 hf.2,
          ih fuel' (by simpa using hfuel)
            (fun g hg => hgood g (List.mem_cons_of_mem f hg))]

/-- The central directory plus EOCD suffix produced by
`buildZipUint8Array` never reads as a local entry. -/
theorem unzipGo_tail_of_build (files : List ZFile) (k : Nat) :
    unzipGo k ((centralParts files 0).flatten ++
      eocdRecord (centralParts files 0).length
        ((centralParts files 0).flatten).length
        ((files.map localEntry).flatten).length) = [] := by
  cases files with
  | nil => simpa [centralParts] using unzipGo_eocd k 0 0 0
  | cons f fs =>
      simp only [centralParts, List.flatten_cons, List.append_assoc]
      exact unzipGo_centralEntry k f 0 _

/-- C4 (amended): for every file list with non-empty unique names in which
each name is shorter than `2 ^ 16` bytes and each file smaller than
`2 ^ 32` bytes, reading back the archive produced by `buildZipUint8Array`
yields exactly the input files — same names, same bytes, same count, same
order (the empty list and zero-length contents included). -/
theorem c4_roundtrip (files : List ZFile)
    (hne : ∀ f ∈ files, f.name ≠ [])
    (huniq : (files.map ZFile.name).Nodup)
    (hname : ∀ f ∈ files, f.name.length < 65536)
    (hdata : ∀ f ∈ files, f.data.length < 4294967296) :
    unzipEntries (buildZipUint8Array files) = files := by
  have hfuel : files.length ≤ (buildZipUint8Array files).length := by
    have h1 := length_le_flatten_localEntry files
    simp only [buildZipUint8Array, List.length_append]
    omega
  have h := unzipGo_flatten files _ (buildZipUint8Array files).length hfuel
    (fun g hg => ⟨hname g hg, hdata g hg⟩) (unzipGo_tail_of_build files)
  simpa only [buildZipUint8Array, List.append_assoc, unzipEntries] using h

/-- Witness for `c4_roundtrip`: a concrete two-file archive (one with empty
contents) satisfies every hypothesis and round-trips. -/
theorem c4_roundtrip_witness :
    (∀ f ∈ [ZFile.mk [97] [1, 2, 3], ZFile.mk [98, 99] []], f.name ≠ []) ∧
    (([ZFile.mk [97] [1, 2, 3], ZFile.mk [98, 99] []].map ZFile.name).Nodup) ∧
    unzipEntries (buildZipUint8Array
        [ZFile.mk [97] [1, 2, 3], ZFile.mk [98, 99] []]) =
      [ZFile.mk [97] [1, 2, 3], ZFile.mk [98, 99] []] :=
  ⟨by decide, by decide,
   c4_roundtrip _ (by decide) (by decide) (by decide) (by decide)⟩

/-- C4 counterexample: the round-trip property as stated — with no size
bound — fails for a single file whose (unique, non-empty) name is 65536
bytes long: the 16-bit name-length field wraps to 0 and the archive reads
back as one anonymous empty file. -/
theorem c4_counterexample :
    unzipEntries (buildZipUint8Array [⟨bigName, []⟩]) ≠ [⟨bigName, []⟩] := by
  have key : ∀ (tail : Bytes) (k : Nat),
      unzipGo (k + 1) (localEntry ⟨bigName, []⟩ ++ tail) = [⟨[], []⟩] := by
    intro tail k
    rw [localEntry_append, unzipGo_step]
    have hrep : List.replicate 65536 (97 : Nat) = 97 :: List.replicate 65535 97 :=
      rfl
    simp only [bigName, List.length_replicate]
    norm_num
    rw [hrep]
    simp only [List.cons_append, unzipGo_97]
  obtain ⟨k, hk⟩ : ∃ k, (buildZipUint8Array [⟨bigName, []⟩]).length = k + 1 := by
    refine ⟨(buildZipUint8Array [⟨bigName, []⟩]).length - 1, ?_⟩
    have h1 := localEntry_length ⟨bigName, []⟩
    simp only [buildZipUint8Array, List.length_append, List.map_cons,
      List.map_nil, List.flatten_cons, List.flatten_nil, List.append_nil]
    omega
  have hsplit : buildZipUint8Array [⟨bigName, []⟩] =
      localEntry ⟨bigName, []⟩ ++
        ((centralParts [⟨bigName, []⟩] 0).flatten ++
          eocdRecord (centralParts [⟨bigName, []⟩] 0).length
            ((centralParts [⟨bigName, []⟩] 0).flatten).length
            ((([⟨bigName, []⟩] : List ZFile).map localEntry).flatten).length) := by
    simp [buildZipUint8Array]
  have hcalc : unzipEntries (buildZipUint8Array [⟨bigName, []⟩]) = [⟨[], []⟩] := by
    unfold unzipEntries
    rw [hk, hsplit, key]
  rw [hcalc]
  intro h
  have h1 := congrArg (fun l => ((l.headD ⟨[], []⟩).name).length) h
  simp only [List.headD_cons, bigName, List.length_replicate,
    List.length_nil] at h1
  exact absurd h1 (by norm_num)


/-- C7: the writer's CRC-32 of the ASCII bytes `"123456789"` is the
standard check value `0xCBF43926` (second conjunct: those bytes). -/
theorem c7_crc32_check_value :
    crc32 (utf8 "123456789") = 0xCBF43926 ∧
    utf8 "123456789" = [49, 50, 51, 52, 53, 54, 55, 56, 57] := by
  constructor <;> decide

/-- C6: with one file added, the streaming builder's EOCD entry-count field
reads 0 (it stores `⌊12·n/13⌋` because `central` holds 12 pieces per
entry), while one file was added; the buffered builder's EOCD count field
(at byte 87 of its output for the same file) correctly reads 1. -/
theorem c6_streaming_eocd_count :
    streamEocdEntryCount [⟨[97], [1]⟩] = 0 ∧
    ([ZFile.mk [97] [1]] : List ZFile).length = 1 ∧
    readU16 (buildZipUint8Array [⟨[97], [1]⟩]) 87 = 1 := by
  refine ⟨by decide, by decide, by decide⟩

/-- C1: the export handler performs no blob-store writes at all — in
particular the manifest bytes are not persisted under any per-subject key
before the handler returns its ZIP response. -/
theorem c1_no_manifest_persisted (db : D1) (r2 : R2Store)
    (hash : Bytes → Except String String) (pdf : Except String Bytes)
    (iser : IndexObj → Bytes) (oid nowStr : String) :
    (exportEvidence db r2 hash pdf iser oid nowStr).r2Puts = [] := rfl

/-- C2: running verification immediately after an export (which writes
nothing to the blob store, so the store is unchanged) fails with the
manifest-not-found outcome whenever the store does not already hold an
`index.json` under one of the probed keys — nothing in the system ever
writes one. -/
theorem c2_verify_after_export (db : D1) (r2 : R2Store)
    (hash : Bytes → Except String String) (pdf : Except String Bytes)
    (iser : IndexObj → Bytes) (parse : Bytes → Option ParsedIndex)
    (oid nowStr tsStr : String)
    (hstore : ∀ k ∈ indexCandidates oid, r2get r2 k = none) :
    (exportEvidence db r2 hash pdf iser oid nowStr).r2Puts = [] ∧
    verifyEvidence db r2 hash parse oid tsStr = .notFound := by
  refine ⟨rfl, ?_⟩
  have hempty : (indexCandidates oid).filterMap
      (fun k => (r2get r2 k).map (fun b => (k, b))) = [] := by
    rw [List.filterMap_eq_nil_iff]
    intro k hk
    rw [hstore k hk]
    rfl
  unfold verifyEvidence fetchIndexJsonFromR2
  rw [hempty]
  rfl

/-- Witness for `c2_verify_after_export` at an empty blob store. -/
theorem c2_witness :
    (∀ k ∈ indexCandidates "TB-ABC1234", r2get ([] : R2Store) k = none) ∧
    verifyEvidence ⟨[], [], [], []⟩ ([] : R2Store) (fun _ => .ok "")
      (fun _ => none) "TB-ABC1234" "0" = .notFound :=
  ⟨by decide,
   (c2_verify_after_export ⟨[], [], [], []⟩ [] (fun _ => .ok "") (.ok [])
     (fun _ => []) (fun _ => none) "TB-ABC1234" "now" "0" (by decide)).2⟩

/-- `m[k] = v` makes `k` a key. -/
theorem jsSet_keys_mem (m : List (String × Option String)) (k : String)
    (v : Option String) : k ∈ (jsSet m k v).map Prod.fst := by
  unfold jsSet
  by_cases h : m.any (fun p => p.1 = k)
  · rw [if_pos h]
    rcases List.any_eq_true.1 h with ⟨p, hp, hpk⟩
    refine List.mem_map.2 ⟨(k, v), ?_, rfl⟩
    refine List.mem_map.2 ⟨p, hp, ?_⟩
    simp only [of_decide_eq_true hpk, if_pos]
  · rw [if_neg h]
    simp

/-- `m[k] = v` keeps every existing key. -/
theorem jsSet_keys_super (m : List (String × Option String)) (k x : String)
    (v : Option String) (hx : x ∈ m.map Prod.fst) :
    x ∈ (jsSet m k v).map Prod.fst := by
  unfold jsSet
  by_cases h : m.any (fun p => p.1 = k)
  · rw [if_pos h]
    rcases List.mem_map.1 hx with ⟨p, hp, rfl⟩
    refine List.mem_map.2
      ⟨if p.1 = k then (k, v) else p, List.mem_map_of_mem _ hp, ?_⟩
    by_cases hpk : p.1 = k
    · simp [hpk]
    · simp [hpk]
  · rw [if_neg h]
    simp only [List.map_append, List.mem_append]
    exact Or.inl hx

/-- `m[k] = v` adds no key other than `k`. -/
theorem jsSet_keys_sub (m : List (String × Option String)) (k x : String)
    (v : Option String) (hx : x ∈ (jsSet m k v).map Prod.fst) :
    x ∈ m.map Prod.fst ∨ x = k := by
  unfold jsSet at hx
  by_cases h : m.any (fun p => p.1 = k)
  · rw [if_pos h] at hx
    rcases List.mem_map.1 hx with ⟨q, hq, rfl⟩
    rcases List.mem_map.1 hq with ⟨p, hp, rfl⟩
    by_cases hpk : p.1 = k
    · simp [hpk]
    · simp only [if_neg hpk]
      exact Or.inl (List.mem_map_of_mem _ hp)
  · rw [if_neg h] at hx
    simp only [List.map_append, List.mem_append] at hx
    rcases hx with hx | hx
    · exact Or.inl hx
    · simp at hx
      exact Or.inr hx

/-- Every name of a processed file is a key of the final `shaMap`. -/
theorem shaGo_keys_complete (hash : Bytes → Except String String)
    (files : List NamedFile) :
    ∀ acc x, (x ∈ acc.1.map Prod.fst ∨ x ∈ files.map NamedFile.name) →
      x ∈ (computeShaMapGo hash files acc).1.map Prod.fst := by
  induction files with
  | nil =>
      intro acc x hx
      simpa [computeShaMapGo] using hx.resolve_right (by simp)
  | cons f fs ih =>
      intro acc x hx
      rw [computeShaMapGo]
      cases hh : hash f.data with
      | ok h =>
          refine ih _ x ?_
          rcases hx with hx | hx
          · exact Or.inl (jsSet_keys_super _ _ _ _ hx)
          · simp only [List.map_cons, List.mem_cons] at hx
            rcases hx with rfl | hx
            · exact Or.inl (jsSet_keys_mem _ _ _)
            · exact Or.inr hx
      | error e =>
          refine ih _ x ?_
          rcases hx with hx | hx
          · exact Or.inl (jsSet_keys_super _ _ _ _ hx)
          · simp only [List.map_cons, List.mem_cons] at hx
            rcases hx with rfl | hx
            · exact Or.inl (jsSet_keys_mem _ _ _)
            · exact Or.inr hx

/-- Every key of the final `shaMap` is an initial key or a processed file
name. -/
theorem shaGo_keys_sub (hash : Bytes → Except String String)
    (files : List NamedFile) :
    ∀ acc x, x ∈ (computeShaMapGo hash files acc).1.map Prod.fst →
      x ∈ acc.1.map Prod.fst ∨ x ∈ files.map NamedFile.name := by
  induction files with
  | nil =>
      intro acc x hx
      exact Or.inl (by simpa [computeShaMapGo] using hx)
  | cons f fs ih =>
      intro acc x hx
      rw [computeShaMapGo] at hx
      cases hh : hash f.data with
      | ok h =>
          rw [hh] at hx
          rcases ih _ x hx with hx | hx
          · rcases jsSet_keys_sub _ _ _ _ hx with hx | rfl
            · exact Or.inl hx
            · exact Or.inr (by simp)
          · exact Or.inr (by simp [hx])
      | error e =>
          rw [hh] at hx
          rcases ih _ x hx with hx | hx
          · rcases jsSet_keys_sub _ _ _ _ hx with hx | rfl
            · exact Or.inl hx
            · exact Or.inr (by simp)
          · exact Or.inr (by simp [hx])



/-- Assigning a fresh key appends it. -/
theorem jsSet_fresh (m : List (String × Option String)) (k : String)
    (v : Option String) (hk : k ∉ m.map Prod.fst) :
    jsSet m k v = m ++ [(k, v)] := by
  unfold jsSet
  rw [if_neg]
  intro h
  rcases List.any_eq_true.1 h with ⟨p, hp, hpk⟩
  exact hk (List.mem_map.2 ⟨p, hp, of_decide_eq_true hpk⟩)

/-- With pairwise-distinct names all fresh relative to the accumulator, the
hash loop appends exactly one digest entry and one custody step per file,
in file order. -/
theorem shaGo_nodup_eq (hash : Bytes → Except String String)
    (files : List NamedFile) :
    ∀ acc, (∀ f ∈ files, f.name ∉ acc.1.map Prod.fst) →
      (files.map NamedFile.name).Nodup →
      computeShaMapGo hash files acc =
        (acc.1 ++ files.map (fun f => (f.name, digestOf hash f)),
         acc.2 ++ files.map (stepOf hash)) := by
  induction files with
  | nil =>
      intro acc _ _
      simp [computeShaMapGo]
  | cons f fs ih =>
      intro acc hfresh hnodup
      simp only [List.map_cons, List.nodup_cons] at hnodup
      have hfreshf : f.name ∉ List.map Prod.fst acc.1 := hfresh f (by simp)
      have hcond : ∀ v, ∀ g ∈ fs,
          g.name ∉ List.map Prod.fst (acc.1 ++ [(f.name, v)]) := by
        intro v g hg
        simp only [List.map_append, List.mem_append, List.map_cons,
          List.map_nil, List.mem_singleton]
        rintro (hmem | hmem)
        · exact hfresh g (List.mem_cons_of_mem f hg) hmem
        · exact hnodup.1 (hmem ▸ List.mem_map_of_mem NamedFile.name hg)
      cases hh : hash f.data with
      | ok h =>
          simp only [computeShaMapGo, hh]
          rw [jsSet_fresh acc.1 f.name (some h) hfreshf,
            ih _ (hcond (some h)) hnodup.2]
          simp only [List.map_cons, digestOf, stepOf, hh]
          simp
      | error e =>
          simp only [computeShaMapGo, hh]
          rw [jsSet_fresh acc.1 f.name none hfreshf,
            ih _ (hcond none) hnodup.2]
          simp only [List.map_cons, digestOf, stepOf, hh]
          simp

/-- Object read from a one-pair-per-file map: with distinct names, a
member's name reads back its own recorded value. -/
theorem jsGet_map_pairs (dg : NamedFile → Option String)
    (files : List NamedFile) (f : NamedFile) (hf : f ∈ files)
    (hnodup : (files.map NamedFile.name).Nodup) :
    jsGet (files.map (fun g => (g.name, dg g))) f.name = some (dg f) := by
  induction files with
  | nil => cases hf
  | cons g gs ih =>
      simp only [List.map_cons, List.nodup_cons] at hnodup
      by_cases hgf : g.name = f.name
      · have : f = g := by
          rcases List.mem_cons.1 hf with rfl | hmem
          · rfl
          · exact absurd (hgf ▸ List.mem_map_of_mem NamedFile.name hmem)
              hnodup.1
        subst this
        simp [jsGet, List.find?_cons_of_pos]
      · have hmem : f ∈ gs := by
          rcases List.mem_cons.1 hf with rfl | hmem
          · exact absurd rfl hgf
          · exact hmem
        have := ih hmem hnodup.2
        simpa [jsGet, List.find?_cons_of_neg, hgf] using this



/-- Every file the collection phase produces is named under `D1/`, `R2/` or
`report/`. -/
theorem collectFiles_names (db : D1) (r2 : R2Store)
    (pdf : Except String Bytes) (oid nowStr : String) :
    ∀ f ∈ collectFiles db r2 pdf oid nowStr, evidencePrefixed f.name := by
  intro f hf
  simp only [collectFiles] at hf
  rcases List.mem_append.1 hf with h1 | h1
  · rcases List.mem_append.1 h1 with h2 | h2
    · rcases List.mem_append.1 h2 with h3 | h3
      · fin_cases h3
        · exact Or.inl ⟨"orders.json", (by decide : ("D1/orders.json" : String) = "D1/" ++ "orders.json")⟩
        · exact Or.inl ⟨"orders-summary.csv", (by decide : ("D1/orders-summary.csv" : String) = "D1/" ++ "orders-summary.csv")⟩
        · exact Or.inl ⟨"acceptance_records.json", (by decide : ("D1/acceptance_records.json" : String) = "D1/" ++ "acceptance_records.json")⟩
        · exact Or.inl ⟨"email_attempts.json", (by decide : ("D1/email_attempts.json" : String) = "D1/" ++ "email_attempts.json")⟩
        · exact Or.inl ⟨"verification_logs.json", (by decide : ("D1/verification_logs.json" : String) = "D1/" ++ "verification_logs.json")⟩
      · rcases List.mem_append.1 h3 with h4 | h4 <;>
          · simp only [r2PhaseFiles] at h4
            obtain ⟨o, -, rfl⟩ := List.mem_map.1 h4
            exact Or.inr (Or.inl ⟨_, rfl⟩)
    · simp only [List.mem_singleton] at h2
      subst h2
      exact Or.inr (Or.inr ⟨_, rfl⟩)
  · simp only [List.mem_singleton] at h1
    subst h1
    exact Or.inr (Or.inr ⟨_, rfl⟩)

/-- A prefixed evidence name is never the manifest's own name. -/
theorem evidencePrefixed_ne_index (n : String) (h : evidencePrefixed n) :
    n ≠ "index.json" := by
  rcases h with ⟨r, rfl⟩ | ⟨r, rfl⟩ | ⟨r, rfl⟩ <;>
    · intro hc
      have h2 := congrArg String.data hc
      simp [String.data_append] at h2



/-- C5: for every export (all oracles and stores arbitrary), the manifest
(1) has a `sha256` key for every name in its `files` list, (2) lists
exactly the names of the archive entries that precede it, in insertion
order (the manifest itself being the final entry), and (3) names itself in
neither its `files` list nor its `sha256` map. -/
theorem c5_manifest_invariants (db : D1) (r2 : R2Store)
    (hash : Bytes → Except String String) (pdf : Except String Bytes)
    (iser : IndexObj → Bytes) (oid nowStr : String) :
    (∀ n ∈ (exportEvidence db r2 hash pdf iser oid nowStr).index.files,
        n ∈ (exportEvidence db r2 hash pdf iser oid nowStr).index.sha256.map
          Prod.fst) ∧
    (exportEvidence db r2 hash pdf iser oid nowStr).index.files =
      ((exportEvidence db r2 hash pdf iser oid nowStr).files.dropLast).map
        NamedFile.name ∧
    (exportEvidence db r2 hash pdf iser oid nowStr).files.map NamedFile.name =
      (exportEvidence db r2 hash pdf iser oid nowStr).index.files ++
        ["index.json"] ∧
    "index.json" ∉ (exportEvidence db r2 hash pdf iser oid nowStr).index.files ∧
    "index.json" ∉
      (exportEvidence db r2 hash pdf iser oid nowStr).index.sha256.map
        Prod.fst := by
  have hfiles : (exportEvidence db r2 hash pdf iser oid nowStr).files =
      collectFiles db r2 pdf oid nowStr ++
        [⟨"index.json",
          iser (exportEvidence db r2 hash pdf iser oid nowStr).index⟩] := rfl
  have hidx : (exportEvidence db r2 hash pdf iser oid nowStr).index.files =
      (collectFiles db r2 pdf oid nowStr).map NamedFile.name := rfl
  have hsha : (exportEvidence db r2 hash pdf iser oid nowStr).index.sha256 =
      (computeShaMapGo hash (collectFiles db r2 pdf oid nowStr) ([], [])).1 :=
    rfl
  have hnotin : "index.json" ∉
      (collectFiles db r2 pdf oid nowStr).map NamedFile.name := by
    intro h
    rcases List.mem_map.1 h with ⟨f, hf, hname⟩
    exact evidencePrefixed_ne_index f.name
      (collectFiles_names db r2 pdf oid nowStr f hf) hname
  refine ⟨?_, ?_, ?_, ?_, ?_⟩
  · intro n hn
    rw [hidx] at hn
    rw [hsha]
    exact shaGo_keys_complete hash _ ([], []) n (Or.inr hn)
  · rw [hidx, hfiles]
    simp
  · rw [hfiles, hidx]
    simp
  · rw [hidx]
    exact hnotin
  · rw [hsha]
    intro h
    rcases shaGo_keys_sub hash _ ([], []) _ h with h | h
    · simp at h
    · exact hnotin h

/-- C9: when the hash oracle throws on one of the collected files (names
pairwise distinct), the digest phase records a `null` digest for that file,
appends a `hash_error` custody step carrying the message, still gives every
collected file a digest entry (in file order), and still appends the
manifest as the final evidence file — the export completes. -/
theorem c9_hash_error_isolated (hash : Bytes → Except String String)
    (iser : IndexObj → Bytes) (oid nowStr : String)
    (files : List NamedFile) (chain : List CustodyStep) (f : NamedFile)
    (e : String) (hmem : f ∈ files)
    (hnodup : (files.map NamedFile.name).Nodup)
    (herr : hash f.data = .error e) :
    jsGet (digestPhase hash iser oid nowStr files chain).2.1.sha256 f.name =
      some none ∧
    (⟨"hash_error", [("name", f.name), ("error", e)]⟩ : CustodyStep) ∈
      (digestPhase hash iser oid nowStr files chain).2.1.chain_of_custody ∧
    (digestPhase hash iser oid nowStr files chain).2.1.sha256.map Prod.fst =
      files.map NamedFile.name ∧
    (digestPhase hash iser oid nowStr files chain).1 =
      files ++ [⟨"index.json",
        iser (digestPhase hash iser oid nowStr files chain).2.1⟩] := by
  have hX := shaGo_nodup_eq hash files ([], []) (by simp) hnodup
  have hsha : (digestPhase hash iser oid nowStr files chain).2.1.sha256 =
      (computeShaMapGo hash files ([], [])).1 := rfl
  have hchain :
      (digestPhase hash iser oid nowStr files chain).2.1.chain_of_custody =
      (chain ++ [⟨"compute_hashes", []⟩]) ++
        (computeShaMapGo hash files ([], [])).2 := rfl
  refine ⟨?_, ?_, ?_, rfl⟩
  · rw [hsha, hX]
    simp only [List.nil_append]
    rw [jsGet_map_pairs (digestOf hash) files f hmem hnodup]
    simp [digestOf, herr]
  · rw [hchain, hX]
    simp only [List.nil_append]
    refine List.mem_append.2 (Or.inr ?_)
    have : stepOf hash f = ⟨"hash_error", [("name", f.name), ("error", e)]⟩ := by
      simp [stepOf, herr]
    exact this ▸ List.mem_map_of_mem (stepOf hash) hmem
  · rw [hsha, hX]
    simp

/-- Witness for `c9_hash_error_isolated`: a two-file collection whose hash
oracle throws on the first file only. -/
theorem c9_witness :
    (⟨"a", [0]⟩ : NamedFile) ∈ [NamedFile.mk "a" [0], NamedFile.mk "b" [1]] ∧
    jsGet (digestPhase
        (fun bs => if bs = [0] then .error "boom" else .ok "ok")
        (fun _ => []) "TB-1" "now"
        [NamedFile.mk "a" [0], NamedFile.mk "b" [1]] []).2.1.sha256 "a" =
      some none :=
  ⟨by decide,
   (c9_hash_error_isolated
     (fun bs => if bs = [0] then .error "boom" else .ok "ok")
     (fun _ => []) "TB-1" "now"
     [NamedFile.mk "a" [0], NamedFile.mk "b" [1]] [] ⟨"a", [0]⟩ "boom"
     (by decide) (by decide) rfl).1⟩



/-- A manifest entry shaped `R2/<label>/<short>` whose mapped key is absent
produces the "missing in R2" result and mismatch. -/
theorem verifyOne_missing (db : D1) (r2 : R2Store)
    (hash : Bytes → Except String String) (oid : String)
    (ordersRow : Option Row) (expected : List (String × Option String))
    (fname label short : String)
    (hsplit : strSplit fname '/' = ["R2", label, short])
    (hstarts : strStartsWith fname "R2/" = true)
    (hmiss : r2get r2 (label ++ "/" ++ oid ++ "/" ++ short) = none) :
    verifyOne db r2 hash oid ordersRow expected fname =
      (⟨fname, some false, none, some "missing in R2"⟩,
       some ⟨fname, some "missing in R2", none, none, none⟩) := by
  unfold verifyOne
  rw [hstarts, hsplit]
  simp [show String.intercalate "/" [short] = short from rfl, hmiss]

/-- C8: when a manifest's file list references a blob-store object
(`R2/<label>/<short>`) that is absent from the store under its mapped key,
the audit carries a mismatch for that file with reason "missing in R2",
every listed file still gets a result (the loop continues), and the
audit's overall flag is `false`. -/
theorem c8_missing_blob (db : D1) (r2 : R2Store)
    (hash : Bytes → Except String String) (oid key : String)
    (ordersRow : Option Row) (expected : List (String × Option String))
    (fileList : List String) (fname label short : String)
    (hsplit : strSplit fname '/' = ["R2", label, short])
    (hstarts : strStartsWith fname "R2/" = true)
    (hmem : fname ∈ fileList)
    (hmiss : r2get r2 (label ++ "/" ++ oid ++ "/" ++ short) = none) :
    (⟨fname, some "missing in R2", none, none, none⟩ : Mismatch) ∈
      (mkAudit oid key
        (verifyLoop db r2 hash oid ordersRow expected fileList)).mismatches ∧
    (mkAudit oid key
        (verifyLoop db r2 hash oid ordersRow expected fileList)).results.length =
      fileList.length ∧
    (mkAudit oid key
        (verifyLoop db r2 hash oid ordersRow expected fileList)).ok = false := by
  have hone := verifyOne_missing db r2 hash oid ordersRow expected
    fname label short hsplit hstarts hmiss
  have hmm : (⟨fname, some "missing in R2", none, none, none⟩ : Mismatch) ∈
      (verifyLoop db r2 hash oid ordersRow expected fileList).2 := by
    simp only [verifyLoop]
    refine List.mem_filterMap.2
      ⟨verifyOne db r2 hash oid ordersRow expected fname, ?_, ?_⟩
    · exact List.mem_map_of_mem _ hmem
    · rw [hone]
  refine ⟨hmm, ?_, ?_⟩
  · simp [mkAudit, verifyLoop]
  · simp only [mkAudit, decide_eq_false_iff_not]
    intro hlen
    rw [List.length_eq_zero] at hlen
    rw [hlen] at hmm
    cases hmm



/-- Witness for `c8_missing_blob`: a one-entry manifest referencing an
object absent from an empty store. -/
theorem c8_witness :
    strSplit "R2/email_attempts/a.json" '/' =
      ["R2", "email_attempts", "a.json"] ∧
    (⟨"R2/email_attempts/a.json", some "missing in R2", none, none, none⟩ :
        Mismatch) ∈
      (mkAudit "o" "k" (verifyLoop ⟨[], [], [], []⟩ [] (fun _ => .ok "") "o"
        none [] ["R2/email_attempts/a.json"])).mismatches ∧
    (mkAudit "o" "k" (verifyLoop ⟨[], [], [], []⟩ [] (fun _ => .ok "") "o"
        none [] ["R2/email_attempts/a.json"])).ok = false := by
  have h := c8_missing_blob ⟨[], [], [], []⟩ [] (fun _ => .ok "") "o" "k"
    none [] ["R2/email_attempts/a.json"] "R2/email_attempts/a.json"
    "email_attempts" "a.json" (by decide) (by decide) (by decide) rfl
  exact ⟨by decide, h.1, h.2.2⟩

/-- `SELECT ... WHERE col = NULL` matches nothing. -/
theorem selectWhere_null (tbl : List Row) (col : String) :
    selectWhere tbl col JVal.null = [] := by
  rw [selectWhere, List.filter_eq_nil_iff]
  intro r _
  cases hget : rowGet r col with
  | none => simp
  | some w => cases w <;> simp [sqlEq]

/-- Sorting an already `id`-sorted row list changes nothing. -/
theorem sortById_sorted_eq (l : List Row)
    (h : List.Sorted (fun a b : Row => idOf a ≤ idOf b) l) :
    sortById l = l :=
  h.insertionSort_eq

/-- With a `stripe_session_id` that is `NULL`, absent, or truthy, the
Verifier's rebuild agrees with the Collector's subquery filter. -/
theorem acceptance_rows_agree (db : D1) (r : Row)
    (hsid : ∀ v, rowGet r "stripe_session_id" = some v →
      v = JVal.null ∨ truthy v = true) :
    verifierAcceptanceRows db (some r) =
      match rowGet r "stripe_session_id" with
      | none => []
      | some v => selectWhere db.acceptance_records "stripe_session_id" v := by
  change (match rowGet r "stripe_session_id" with
      | none => []
      | some v =>
          if truthy v = true then
            selectWhere db.acceptance_records "stripe_session_id" v
          else []) = _
  cases hget : rowGet r "stripe_session_id" with
  | none => rfl
  | some v =>
      rcases hsid v hget with rfl | htr
      · simp [truthy, selectWhere_null]
      · simp [htr]

/-- C3 (amended): the Verifier's re-derived bytes for `D1/<table>.json`
equal the Collector's for all four categories, provided (1) the rows the
store returns for the Collector's unordered `email_attempts` and
`verification_logs` queries are already in ascending `id` order (the
Verifier's rebuild adds `ORDER BY id ASC`, which the Collector's query does
not have), and (2) the primary record's `stripe_session_id` is not a falsy
non-`NULL` scalar such as `""` or `0` (the Verifier treats falsy values as
absent, the Collector's SQL `=` does not). -/
theorem c3_reserialization (db : D1) (oid : String)
    (hem : List.Sorted (fun a b : Row => idOf a ≤ idOf b)
      (exportEmailRows db oid))
    (hvl : List.Sorted (fun a b : Row => idOf a ≤ idOf b)
      (exportVerifLogRows db oid))
    (hsid : ∀ r, (selectWhere db.orders "order_id" (JVal.str oid)).head? =
        some r →
      ∀ v, rowGet r "stripe_session_id" = some v →
        v = JVal.null ∨ truthy v = true) :
    ∀ t ∈ (["orders", "acceptance_records", "email_attempts",
        "verification_logs"] : List String),
      verifierTableBytes db oid t = collectorTableBytes db oid t := by
  intro t ht
  fin_cases ht
  · rfl
  · show utf8 (serializeRows (verifierAcceptanceRows db
        ((selectWhere db.orders "order_id" (JVal.str oid)).head?))) =
      utf8 (serializeRows (exportAcceptanceRows db oid))
    cases hrow : (selectWhere db.orders "order_id" (JVal.str oid)).head? with
    | none =>
        have hexp : exportAcceptanceRows db oid = [] := by
          unfold exportAcceptanceRows
          rw [hrow]
        rw [hexp]
        rfl
    | some r =>
        have hexp : exportAcceptanceRows db oid =
            match rowGet r "stripe_session_id" with
            | none => []
            | some v =>
                selectWhere db.acceptance_records "stripe_session_id" v := by
          unfold exportAcceptanceRows
          rw [hrow]
        rw [hexp, acceptance_rows_agree db r (fun v hv => hsid r hrow v hv)]
  · show utf8 (serializeRows (sortById (exportEmailRows db oid))) =
      utf8 (serializeRows (exportEmailRows db oid))
    rw [sortById_sorted_eq _ hem]
  · show utf8 (serializeRows (sortById (exportVerifLogRows db oid))) =
      utf8 (serializeRows (exportVerifLogRows db oid))
    rw [sortById_sorted_eq _ hvl]

/-- Witness for `c3_reserialization`: a store with one matching, sorted
`email_attempts` pair and a truthy session id. -/
theorem c3_witness_db_eq :
    verifierTableBytes
      ⟨[[("order_id", .str "o"), ("stripe_session_id", .str "cs_1")]], [],
       [[("id", .num 1), ("order_id", .str "o")],
        [("id", .num 2), ("order_id", .str "o")]], []⟩
      "o" "email_attempts" =
    collectorTableBytes
      ⟨[[("order_id", .str "o"), ("stripe_session_id", .str "cs_1")]], [],
       [[("id", .num 1), ("order_id", .str "o")],
        [("id", .num 2), ("order_id", .str "o")]], []⟩
      "o" "email_attempts" :=
  c3_reserialization
    ⟨[[("order_id", .str "o"), ("stripe_session_id", .str "cs_1")]], [],
     [[("id", .num 1), ("order_id", .str "o")],
      [("id", .num 2), ("order_id", .str "o")]], []⟩
    "o" (by decide) (by decide) (by decide) "email_attempts" (by decide)

/-- C3 counterexample: with the two matching `email_attempts` rows stored
out of `id` order, the Collector serializes them in store order while the
Verifier re-serializes them `id`-sorted, so the two byte sequences differ
even though the store rows never changed. -/
theorem c3_counterexample :
    verifierTableBytes cexDb "o" "email_attempts" ≠
      collectorTableBytes cexDb "o" "email_attempts" := by
  decide



/-- C10: a successful customer verification (valid, unexpired, non-empty
token) returns 200 and stores the order row with `verification_token`
cleared to `NULL`; replaying the same `(order_id, token)` pair against the
updated row is rejected with 404 ("order not found or no token") — a
verification token is consumable at most once. -/
theorem c10_token_single_use (oid token : String) (row : OrderRow)
    (now now2 : Int) (nowStr nowStr2 : String)
    (ip ua eh ip2 ua2 eh2 : Option String)
    (hoid : oid ≠ "") (htok : token ≠ "")
    (hstored : row.verification_token = some token)
    (hexp : ∀ e, row.token_expires_at = some e → ¬e < now) :
    (verifyOrderOnce oid token (some row) now nowStr ip ua eh).1 = 200 ∧
    (verifyOrderOnce oid token (some row) now nowStr ip ua eh).2 =
      some (markVerified row nowStr ip ua eh) ∧
    (markVerified row nowStr ip ua eh).verification_token = none ∧
    (verifyOrderOnce oid token
        ((verifyOrderOnce oid token (some row) now nowStr ip ua eh).2)
        now2 nowStr2 ip2 ua2 eh2).1 = 404 := by
  have hguard : ¬(oid = "" ∨ token = "") := by
    rintro (h | h)
    · exact hoid h
    · exact htok h
  have hfirst : verifyOrderOnce oid token (some row) now nowStr ip ua eh =
      (200, some (markVerified row nowStr ip ua eh)) := by
    unfold verifyOrderOnce
    rw [if_neg hguard]
    simp only [hstored]
    rw [if_neg htok, if_neg (by simp : ¬token ≠ token)]
    cases hte : row.token_expires_at with
    | none => rfl
    | some e => simp [hexp e hte]
  refine ⟨by rw [hfirst], by rw [hfirst], rfl, ?_⟩
  rw [hfirst]
  show (verifyOrderOnce oid token (some (markVerified row nowStr ip ua eh))
      now2 nowStr2 ip2 ua2 eh2).1 = 404
  unfold verifyOrderOnce
  rw [if_neg hguard]
  rfl

/-- Witness for `c10_token_single_use`: a concrete order row with a stored
token expiring after `now`. -/
theorem c10_witness :
    (verifyOrderOnce "TB-1" "tok"
        (some ⟨some "tok", some 100, some "a@b.c", 0, none, none, none, none⟩)
        50 "now" none none none).1 = 200 ∧
    (verifyOrderOnce "TB-1" "tok"
        ((verifyOrderOnce "TB-1" "tok"
          (some ⟨some "tok", some 100, some "a@b.c", 0, none, none, none, none⟩)
          50 "now" none none none).2)
        60 "later" none none none).1 = 404 := by
  have h := c10_token_single_use "TB-1" "tok"
    ⟨some "tok", some 100, some "a@b.c", 0, none, none, none, none⟩
    50 60 "now" "later" none none none none none none
    (by decide) (by decide) rfl (by intro e he; injection he with he2; omega)
  exact ⟨h.1, h.2.2.2⟩


end Techbrot
